import Mathlib

/-!
# Verification of the FFmpeg GUI media job engine

A shallow embedding of the decision logic of `src/app.py`: the command
planner (`build_command`), the progress-line tracker
(`App._set_progress_from_line` and `_parse_time_to_seconds`), the batch
worker (`App._run`) with its trim sanitization, and the preview cache
(`App._cache_preview_image`).

Conventions of the embedding:
* Python floats are modelled as `Rat`.  All the properties proved here are
  about orderings, additions and comparisons with the constant `0.01`,
  which the rational model represents exactly.
* Filesystem and subprocess effects (`os.path.isfile`, `ffprobe` calls,
  `subprocess` exit codes, `os.path` string functions) are modelled as an
  explicit environment record of pure functions.
* Python's `float(...)` accepts the spellings `inf`/`infinity`/`nan`,
  which have no rational value; the value-producing parser treats them as
  failures, while the boolean numericity test `isPyFloat` accepts them,
  matching the way `build_command` only uses `float` as a check.
-/

/-- The characters stripped by Python's `str.strip()` (and by `float`). -/
def isPySpace (c : Char) : Bool :=
  c = ' ' ∨ c = '\t' ∨ c = '\n' ∨ c = '\r' ∨ c = '\x0b' ∨ c = '\x0c'

/-- Python `str.strip()`: remove leading and trailing whitespace. -/
def pyStrip (s : String) : String :=
  ((s.toList.dropWhile isPySpace).reverse.dropWhile isPySpace).reverse.asString

/-- Splitting worker for ``str.split(sep)`` with a non-empty separator.
The fuel argument only serves structural termination; it is always called
with more fuel than characters, so the fuel-exhausted branch is dead. -/
def splitOnAuxL (sep : List Char) : Nat → List Char → List Char → List (List Char)
  | _, [], acc => [acc.reverse]
  | 0, l, acc => [acc.reverse ++ l]
  | Nat.succ fuel, c :: rest, acc =>
    if sep.isPrefixOf (c :: rest) then
      acc.reverse :: splitOnAuxL sep fuel ((c :: rest).drop sep.length) []
    else
      splitOnAuxL sep fuel rest (c :: acc)

/-- Python `s.split(sep)` for a non-empty separator (the only way the
source uses it).  Python raises on an empty separator; we return `[s]`. -/
def splitOnStr (s sep : String) : List String :=
  if sep = "" then [s]
  else (splitOnAuxL sep.toList (s.toList.length + 1) s.toList []).map List.asString

/-- Python `sep in s` membership test for non-empty `sep`. -/
def strContains (s pat : String) : Bool :=
  2 ≤ (splitOnStr s pat).length

/-- Digit list to natural number, most significant first. -/
def digitsToNat (l : List Char) : Nat :=
  l.foldl (fun a c => 10 * a + (c.toNat - '0'.toNat)) 0

/-- CPython's `digitpart`: digits with single underscores allowed between
them.  Returns the digits (underscores removed) and the unconsumed rest. -/
def digitPart : List Char → List Char × List Char
  | c :: '_' :: d :: r =>
    if c.isDigit then
      if d.isDigit then
        match digitPart (d :: r) with
        | (ds, rest) => (c :: ds, rest)
      else ([c], '_' :: d :: r)
    else ([], c :: '_' :: d :: r)
  | c :: r =>
    if c.isDigit then
      match digitPart r with
      | (ds, rest) => (c :: ds, rest)
    else ([], c :: r)
  | [] => ([], [])

/-- Optional exponent suffix `[eE][+-]?digits` applied to a mantissa. -/
def applyExp (m : Rat) : List Char → Option Rat
  | [] => some m
  | c :: r =>
    if c = 'e' ∨ c = 'E' then
      match (match r with
             | '+' :: t => (false, t)
             | '-' :: t => (true, t)
             | t => (false, t)) with
      | (neg, r1) =>
        match digitPart r1 with
        | (ds, r2) =>
          if ds.isEmpty ∨ ¬ r2.isEmpty then none
          else
            let e := digitsToNat ds
            some (if neg then m / (10 : Rat) ^ e else m * (10 : Rat) ^ e)
    else none

/-- Number body of Python's `float(...)` after sign removal:
`digits [. digits] [exp]` or `. digits [exp]`. -/
def pyFloatCore (l : List Char) : Option Rat :=
  match digitPart l with
  | (ds1, r1) =>
    match r1 with
    | '.' :: r2 =>
      match digitPart r2 with
      | (ds2, r3) =>
        if ds1.isEmpty ∧ ds2.isEmpty then none
        else applyExp ((digitsToNat (ds1 ++ ds2) : Rat) / (10 : Rat) ^ ds2.length) r3
    | _ =>
      if ds1.isEmpty then none
      else applyExp (digitsToNat ds1 : Rat) r1

/-- Python `float(s)` as a rational value; `none` models a `ValueError`
(and also the non-rational spellings `inf`/`infinity`/`nan`). -/
def pyFloat (s : String) : Option Rat :=
  match (match (pyStrip s).toList with
         | '+' :: t => (false, t)
         | '-' :: t => (true, t)
         | t => (false, t)) with
  | (neg, l) =>
    match pyFloatCore l with
    | some v => some (if neg then -v else v)
    | none => none

/-- Whether Python `float(s)` succeeds (including `inf`/`nan` spellings). -/
def isPyFloat (s : String) : Bool :=
  match (match (pyStrip s).toList with
         | '+' :: t => t
         | '-' :: t => t
         | t => t) with
  | l =>
    let low := l.map Char.toLower
    low = "inf".toList ∨ low = "infinity".toList ∨ low = "nan".toList ∨
      (pyFloatCore l).isSome

/-- Zero-pad a decimal string on the left to width 3
(the fractional part of an `f"{x:.3f}"` format). -/
def padZeros3 (s : String) : String :=
  (List.replicate (3 - s.toList.length) '0').asString ++ s

/-- Python's `f"{x:.3f}"` on our rational model of floats: the value
rounded to the nearest thousandth, printed with exactly three decimals.
(CPython rounds the underlying binary double half-to-even; on the exact
rational model we round halves up, which agrees everywhere except on
exact half-thousandth boundaries that a binary double cannot hit.) -/
def formatMillis (x : Rat) : String :=
  let n : Int := (x * 1000 + 1 / 2).floor
  let sign := if n < 0 then "-" else ""
  let m := n.natAbs
  sign ++ toString (m / 1000) ++ "." ++ padZeros3 (toString (m % 1000))

/-- Model of `_parse_time_to_seconds` from `src/app.py`.  `Except.error ()` models
a raised exception (a non-float component), `.ok none` models the `None`
returned for an empty string, `.ok (some x)` a parsed seconds value. -/
def parseTimeToSeconds (value : String) : Except Unit (Option Rat) :=
  let v := pyStrip value
  if v = "" then .ok none
  else
    match splitOnStr v ":" with
    | [h, m, s] =>
      match pyFloat h, pyFloat m, pyFloat s with
      | some hv, some mv, some sv => .ok (some (hv * 3600 + mv * 60 + sv))
      | _, _, _ => .error ()
    | [m, s] =>
      match pyFloat m, pyFloat s with
      | some mv, some sv => .ok (some ((0 : Rat) * 3600 + mv * 60 + sv))
      | _, _ => .error ()
    | _ =>
      match pyFloat v with
      | some x => .ok (some x)
      | none => .error ()

/-- The progress state mutated by `App._set_progress_from_line`:
`self.total_duration` and the progress bar value `self.progress["value"]`. -/
structure ProgressState where
  total_duration : Option Rat
  progressValue : Rat
deriving DecidableEq

/-- The token `line.split("Duration:")[1].split(",")[0].strip()`. -/
def durToken (line : String) : String :=
  pyStrip ((splitOnStr ((splitOnStr line "Duration:").getD 1 "") ",").headD "")

/-- The token `line.split("time=")[1].split(" ")[0].strip()`. -/
def timeToken (line : String) : String :=
  pyStrip ((splitOnStr ((splitOnStr line "time=").getD 1 "") " ").headD "")

/-- Model of `App._set_progress_from_line` from `src/app.py`.  Note the `except`
branch of the duration block assigns `self.total_duration = None`, and
the `time=` block requires a truthy (non-`None`, non-zero) total. -/
def setProgressFromLine (st : ProgressState) (line : String) : ProgressState :=
  let st1 :=
    if strContains line "Duration:" then
      match parseTimeToSeconds (durToken line) with
      | .ok d => { st with total_duration := d }
      | .error _ => { st with total_duration := none }
    else st
  match st1.total_duration with
  | some total =>
    if strContains line "time=" ∧ total ≠ 0 then
      match parseTimeToSeconds (timeToken line) with
      | .ok (some current) =>
        { st1 with progressValue := max 0 (min 100 (current / total * 100)) }
      | .ok none => st1
      | .error _ => st1
    else st1
  | none => st1

/-- The ambient effects used by the planner and the batch worker, as pure
functions: `os.path.isfile`, `os.path.isdir`, the `ffprobe` codec and
duration queries, the exit code `run_ffmpeg` would observe for a command,
and the `os.path` string helpers (platform path semantics). -/
structure Env where
  isfile : String → Bool
  isdir : String → Bool
  videoCodec : String → Option String
  duration : String → Option Rat
  exitCode : List String → Int
  basename : String → String
  splitextRoot : String → String
  joinPath : String → String → String

/-- The `values` dictionary assembled in `App._run` and consumed by
`build_command` and `App._build_output_path`. -/
structure Values where
  input_path : String
  output_dir : String
  output_name : String
  format : String
  fps : String
  trim_enabled : Bool
  trim_start : Option Rat
  trim_end : Option Rat
  fps_enabled : Bool
  keep_names : Bool

/-- Model of `_pick_video_encoder` from `src/app.py`: first candidate present in
the encoder set, per-format preference lists, `"gif"` fixed for gif. -/
def pickVideoEncoder (out_fmt : String) (encoders : List String) : Option String :=
  let m1 :=
    if out_fmt = "mp4" ∨ out_fmt = "mov" ∨ out_fmt = "mkv" then
      ["libx264", "libopenh264", "h264_v4l2m2m", "h264_vaapi", "h264_nvenc",
        "mpeg4"].find? (encoders.contains ·)
    else none
  match m1 with
  | some c => some c
  | none =>
    let m2 :=
      if out_fmt = "webm" then
        ["libvpx-vp9", "libvpx", "vp9", "vp8"].find? (encoders.contains ·)
      else none
    match m2 with
    | some c => some c
    | none => if out_fmt = "gif" then some "gif" else none

/-- Model of `_pick_audio_encoder` from `src/app.py`. -/
def pickAudioEncoder (out_fmt : String) (encoders : List String) : Option String :=
  let m1 :=
    if out_fmt = "mp4" ∨ out_fmt = "mov" ∨ out_fmt = "mkv" then
      ["aac", "libfdk_aac"].find? (encoders.contains ·)
    else none
  match m1 with
  | some c => some c
  | none =>
    if out_fmt = "webm" then
      ["libopus", "libvorbis", "opus", "vorbis"].find? (encoders.contains ·)
    else none

/-- The guard `codec and needs_decode and codec not in decoders` of
`build_command` (`if codec` is Python truthiness: non-`None`, non-empty). -/
def codecBlocks (codec : Option String) (needs_decode : Bool) (decoders : List String) : Bool :=
  match codec with
  | some c => c ≠ "" && needs_decode && !(decoders.contains c)
  | none => false

/-- Python `",".join(...)`. -/
def joinComma : List String → String
  | [] => ""
  | [x] => x
  | x :: y :: r => x ++ "," ++ joinComma (y :: r)

/-- The command prefix built before the filter section of `build_command`:
`ffmpeg -y`, then for a trim request the pre-input `-ss` seek, the input,
and a `-to` bound only when `end > start`. -/
def baseCmd (values : Values) (in_path : String) : List String :=
  if values.trim_enabled then
    match values.trim_start with
    | some start =>
      ["ffmpeg", "-y", "-ss", formatMillis start, "-i", in_path] ++
        (match values.trim_end with
         | some e => if start < e then ["-to", formatMillis e] else []
         | none => [])
    | none => ["ffmpeg", "-y"]
  else
    ["ffmpeg", "-y", "-i", in_path]

/-- The output-side tokens of `build_command` (everything between the
input section and the destination path): the gif branch, the stream-copy
fast path, or the filter/encoder selection, plus the mp4/mov faststart
flag. -/
def commandTail (out_fmt gif_fps : String) (filters : List String)
    (trim_enabled : Bool) (encoders : List String) : List String :=
  if out_fmt = "gif" then
    ["-vf", joinComma ["fps=" ++ gif_fps, "scale=640:-1:flags=lanczos"], "-an"]
  else
    (if filters.isEmpty ∧ trim_enabled = false ∧
        (out_fmt = "mp4" ∨ out_fmt = "mov" ∨ out_fmt = "mkv") then
      ["-c", "copy"]
    else
      (if filters.isEmpty then [] else ["-filter:v", joinComma filters]) ++
      (match pickVideoEncoder out_fmt encoders with
       | some v => ["-c:v", v]
       | none => []) ++
      (match pickAudioEncoder out_fmt encoders with
       | some a => ["-c:a", a]
       | none => [])) ++
    (if out_fmt = "mp4" ∨ out_fmt = "mov" then ["-movflags", "+faststart"] else [])

/-- Model of `build_command` from `src/app.py`.  The `raise ValueError` exits are
modelled as `Except.error` with the exact message; the raises occur in
source order (file existence, format, trim start, fps present, fps
numeric, decoder capability), and the fully assembled argument list is
returned otherwise.  The `none` trim-start branch of `baseCmd` is
unreachable here because of the third check. -/
def buildCommand (env : Env) (values : Values) (in_path out_path : String)
    (encoders decoders : List String) : Except String (List String) :=
  let out_fmt := pyStrip values.format
  let fps := pyStrip values.fps
  if env.isfile in_path = false then
    .error "Input file does not exist."
  else if out_fmt = "" then
    .error "Output format is required."
  else if values.trim_enabled = true ∧ values.trim_start = none then
    .error "Trim start time is required when Trim is enabled."
  else if values.fps_enabled = true ∧ fps = "" then
    .error "Target FPS is required when FPS change is enabled."
  else if values.fps_enabled = true ∧ isPyFloat fps = false then
    .error "Target FPS must be a number."
  else
    let filters : List String := if values.fps_enabled then ["fps=" ++ fps] else []
    let codec : Option String := env.videoCodec in_path
    let needs_decode : Bool := !filters.isEmpty || values.trim_enabled || out_fmt = "gif"
    if codecBlocks codec needs_decode decoders then
      .error ("Your FFmpeg build cannot decode '" ++ codec.getD "" ++
        "'. Install a full FFmpeg build or disable trim/FPS change.")
    else
      let gif_fps := if values.fps_enabled then fps else "10"
      .ok (baseCmd values in_path ++
        commandTail out_fmt gif_fps filters values.trim_enabled encoders ++ [out_path])

/-- Python `s.endswith(suffix)`. -/
def endsWithStr (s suffix : String) : Bool :=
  suffix.toList.reverse.isPrefixOf s.toList.reverse

/-- Model of `App._build_output_path` from `src/app.py`.  `inputListLen` is
`len(self.input_list)` at the time of the call. -/
def buildOutputPath (env : Env) (inputListLen : Nat) (values : Values)
    (in_path : String) : Except String String :=
  let out_dir := pyStrip values.output_dir
  let out_name0 := pyStrip values.output_name
  let out_fmt := pyStrip values.format
  if out_dir = "" then .error "Choose an output folder."
  else if env.isdir out_dir = false then .error "Output folder does not exist."
  else
    let out_name1 :=
      if 1 < inputListLen ∧ values.keep_names = true then
        env.splitextRoot (env.basename in_path)
      else out_name0
    if out_name1 = "" then .error "Output filename is required."
    else
      let out_name2 :=
        if endsWithStr out_name1 ("." ++ out_fmt) then out_name1
        else out_name1 ++ "." ++ out_fmt
      .ok (env.joinPath out_dir out_name2)

/-- Stated from the spec's words (section 4.3, "Validation order (first
failing check wins)"): the five checks in the spec's order — input file
exists, format non-empty, trim start present when trimming, target fps
present and numeric when fps change is on, decoder capability when a
pixel-level transform (fps change, trim, or gif output) is required — and
the message of the first failing one.  Compared against `buildCommand`,
which is translated from the source. -/
def specValidationFirstError (env : Env) (values : Values) (in_path : String)
    (decoders : List String) : Option String :=
  let out_fmt := pyStrip values.format
  let fps := pyStrip values.fps
  if env.isfile in_path = false then
    some "Input file does not exist."
  else if out_fmt = "" then
    some "Output format is required."
  else if values.trim_enabled = true ∧ values.trim_start = none then
    some "Trim start time is required when Trim is enabled."
  else if values.fps_enabled = true ∧ fps = "" then
    some "Target FPS is required when FPS change is enabled."
  else if values.fps_enabled = true ∧ isPyFloat fps = false then
    some "Target FPS must be a number."
  else if codecBlocks (env.videoCodec in_path)
      (values.fps_enabled || values.trim_enabled || out_fmt = "gif") decoders then
    some ("Your FFmpeg build cannot decode '" ++ (env.videoCodec in_path).getD "" ++
      "'. Install a full FFmpeg build or disable trim/FPS change.")
  else none

/-- A simple concrete environment for witnesses: every path is a file,
every directory exists, no video codec is probed, durations are fixed,
every command exits 0. -/
def envW : Env where
  isfile := fun _ => true
  isdir := fun _ => true
  videoCodec := fun _ => none
  duration := fun _ => some 60
  exitCode := fun _ => 0
  basename := fun p => p
  splitextRoot := fun p => p
  joinPath := fun a b => a ++ "/" ++ b

/-- A baseline request for witnesses: plain mp4 remux of `in.mp4`. -/
def valuesW : Values where
  input_path := "in.mp4"
  output_dir := "outdir"
  output_name := "output"
  format := "mp4"
  fps := ""
  trim_enabled := false
  trim_start := none
  trim_end := none
  fps_enabled := false
  keep_names := true

/-- An environment probing every input's duration as exactly zero
(a value that is "known" but falsy for Python's `if duration`). -/
def envZ : Env := { envW with duration := fun _ => some 0 }

/-- The baseline request with trimming enabled. -/
def valuesT : Values := { valuesW with trim_enabled := true }

/-- A probing environment that reports codec `h264` for every input. -/
def envH : Env := { envW with videoCodec := fun _ => some "h264" }

/-- An fps-change request targeting 30 fps. -/
def valuesF : Values := { valuesW with fps_enabled := true, fps := "30" }

/-- A trim request from 1s with end 0.5s (end at or below start). -/
def valuesC5 : Values :=
  { valuesW with trim_enabled := true, trim_start := some 1, trim_end := some (1/2) }

/-- A fps-changing gif request targeting 15 fps. -/
def valuesG : Values :=
  { valuesW with format := "gif", fps_enabled := true, fps := "15" }

/-- An environment where only `a.mp4` exists on disk. -/
def envB : Env := { envW with isfile := fun p => p == "a.mp4" }

/-- The trim-bound sanitization inlined at the top of the worker loop of
`App._run`: raise if the start is at or past a truthy duration, drop the
end bound when it is within `0.01` of (or past) the duration, and drop it
when it is within `0.01` of (or before) the start.  `if duration` is
Python truthiness: the checks run only for a known, non-zero duration. -/
def sanitizeTrim (dur : Option Rat) (start e : Rat) : Except String (Rat × Option Rat) :=
  match dur with
  | some d =>
    if d ≠ 0 then
      if d ≤ start then .error "Trim start must be within the video duration."
      else
        if d - 1 / 100 ≤ e then .ok (start, none)
        else if e ≤ start + 1 / 100 then .ok (start, none) else .ok (start, some e)
    else
      if e ≤ start + 1 / 100 then .ok (start, none) else .ok (start, some e)
  | none =>
    if e ≤ start + 1 / 100 then .ok (start, none) else .ok (start, some e)

/-- One iteration of the worker loop of `App._run` up to the subprocess
launch: trim sanitization (when trim is enabled), output-path
construction, and command planning.  `startSec`/`endSec` are the slider
values `self.trim_start_sec`/`self.trim_end_sec`. -/
def planFor (env : Env) (values : Values) (startSec endSec : Rat)
    (inputListLen : Nat) (encoders decoders : List String)
    (in_path : String) : Except String (List String) :=
  match (if values.trim_enabled then
          (sanitizeTrim (env.duration in_path) startSec endSec).map
            (fun p => { values with trim_start := some p.1, trim_end := p.2 })
         else .ok values) with
  | .error e => .error e
  | .ok v =>
    match buildOutputPath env inputListLen v in_path with
    | .error e => .error e
    | .ok out_path => buildCommand env v in_path out_path encoders decoders

/-- The observable outcome of the worker of `App._run`: the jobs actually
launched (input, command, exit code, in order), the first error message
surfaced (validation or the generic ffmpeg failure), and whether the
final "All jobs finished." success message was shown. -/
structure RunOutcome where
  executed : List (String × List String × Int)
  errorMsg : Option String
  success : Bool
deriving DecidableEq

/-- The worker loop of `App._run`: process inputs strictly in order; a
planning failure aborts with its validation message before any launch for
that item; a non-zero exit aborts with the generic ffmpeg error; success
is reported only after every input ran with exit code 0. -/
def runWorker (env : Env) (values : Values) (startSec endSec : Rat)
    (inputListLen : Nat) (encoders decoders : List String) :
    List String → RunOutcome
  | [] => { executed := [], errorMsg := none, success := true }
  | in_path :: rest =>
    match planFor env values startSec endSec inputListLen encoders decoders in_path with
    | .error e => { executed := [], errorMsg := some e, success := false }
    | .ok cmd =>
      let code := env.exitCode cmd
      if code ≠ 0 then
        { executed := [(in_path, cmd, code)],
          errorMsg := some "FFmpeg finished with errors. Check the log.",
          success := false }
      else
        let r := runWorker env values startSec endSec inputListLen encoders decoders rest
        { executed := (in_path, cmd, code) :: r.executed,
          errorMsg := r.errorMsg, success := r.success }

/-- Preview cache keys: `(path, int(t * 2))`. -/
abbrev PreviewKey := String × Int

/-- Python dict assignment `d[k] = v`: replace in place, else append. -/
def dictSet {V : Type} (t : List (PreviewKey × V)) (k : PreviewKey) (v : V) :
    List (PreviewKey × V) :=
  match t with
  | [] => [(k, v)]
  | (k1, v1) :: r => if k1 = k then (k1, v) :: r else (k1, v1) :: dictSet r k v

/-- Python `del d[k]` guarded by `if k in d` (keys are unique). -/
def dictRemove {V : Type} (t : List (PreviewKey × V)) (k : PreviewKey) :
    List (PreviewKey × V) :=
  match t with
  | [] => []
  | (k1, v1) :: r => if k1 = k then r else (k1, v1) :: dictRemove r k

/-- The preview cache state: `self.preview_cache` (a dict in insertion
order) and `self.preview_cache_order`. -/
structure CacheState (V : Type) where
  cache : List (PreviewKey × V)
  order : List PreviewKey

/-- The cache update of `App._cache_preview_image`: store the value,
append the key to the order list, and past capacity 20 evict the
oldest-inserted key. -/
def cachePreviewImage {V : Type} (st : CacheState V) (k : PreviewKey) (v : V) :
    CacheState V :=
  let cache := dictSet st.cache k v
  let order := st.order ++ [k]
  if 20 < order.length then
    match order with
    | old :: rest => { cache := dictRemove cache old, order := rest }
    | [] => { cache := cache, order := order }
  else
    { cache := cache, order := order }

/-- Folding a sequence of insertions through the cache. -/
def insertAll {V : Type} (st : CacheState V) : List (PreviewKey × V) → CacheState V
  | [] => st
  | (k, v) :: r => insertAll (cachePreviewImage st k v) r

/-- The empty preview cache at startup. -/
def emptyCache {V : Type} : CacheState V := { cache := [], order := [] }

/-- A cache state whose order list mirrors its entries. -/
def mkCacheState {V : Type} (l : List (PreviewKey × V)) : CacheState V :=
  { cache := l, order := l.map Prod.fst }

/-- The suffix of the last `n` elements. -/
def lastN {α : Type} (n : Nat) (l : List α) : List α :=
  l.drop (l.length - n)

/-- The 25 distinct preview keys `("f", 0) .. ("f", 24)`. -/
def kvs25 : List (PreviewKey × Unit) :=
  (List.range 25).map fun i => (("f", (i : Int)), ())

/-! ## Helper lemmas -/

theorem codecBlocks_of_not_decode (codec : Option String) (decoders : List String) :
    codecBlocks codec false decoders = false := by
  cases codec <;> simp [codecBlocks]

theorem filters_needs_decode (b t : Bool) (fps fmt : String) :
    (!(if b then ["fps=" ++ fps] else []).isEmpty || t || decide (fmt = "gif"))
      = (b || t || decide (fmt = "gif")) := by
  cases b <;> simp

/-! ## C1: remuxable formats with no trim and no fps change stream-copy -/

/-- C1: for every request with trim disabled, fps change disabled, an
output format (after stripping) in {mp4, mov, mkv}, and an existing input
file, `build_command` succeeds and the planned command contains the
adjacent tokens `-c copy` and none of the re-encode tokens `-c:v`,
`-c:a`, `-filter:v` (the path arguments are assumed not to collide with
those literals). -/
theorem c1_remux_stream_copy (env : Env) (values : Values) (in_path out_path : String)
    (encoders decoders : List String)
    (htrim : values.trim_enabled = false) (hfps : values.fps_enabled = false)
    (hfmt : pyStrip values.format = "mp4" ∨ pyStrip values.format = "mov" ∨
      pyStrip values.format = "mkv")
    (hfile : env.isfile in_path = true)
    (hin : in_path ∉ (["-c:v", "-c:a", "-filter:v"] : List String))
    (hout : out_path ∉ (["-c:v", "-c:a", "-filter:v"] : List String)) :
    ∃ cmd, buildCommand env values in_path out_path encoders decoders = .ok cmd ∧
      cmd = ["ffmpeg", "-y", "-i", in_path, "-c", "copy"] ++
        (if pyStrip values.format = "mp4" ∨ pyStrip values.format = "mov" then
          ["-movflags", "+faststart"] else []) ++ [out_path] ∧
      ["-c", "copy"] <:+: cmd ∧
      "-c:v" ∉ cmd ∧ "-c:a" ∉ cmd ∧ "-filter:v" ∉ cmd := by
  simp only [List.mem_cons, List.not_mem_nil, or_false, not_or] at hin hout
  have hbc : buildCommand env values in_path out_path encoders decoders =
      .ok (["ffmpeg", "-y", "-i", in_path, "-c", "copy"] ++
        (if pyStrip values.format = "mp4" ∨ pyStrip values.format = "mov" then
          ["-movflags", "+faststart"] else []) ++ [out_path]) := by
    rcases hfmt with h | h | h <;>
      simp [buildCommand, htrim, hfps, hfile, h, baseCmd, commandTail,
        codecBlocks_of_not_decode]
  have hin1 : ("-c:v" : String) ≠ in_path := fun hx => hin.1 hx.symm
  have hin2 : ("-c:a" : String) ≠ in_path := fun hx => hin.2.1 hx.symm
  have hin3 : ("-filter:v" : String) ≠ in_path := fun hx => hin.2.2 hx.symm
  have hout1 : ("-c:v" : String) ≠ out_path := fun hx => hout.1 hx.symm
  have hout2 : ("-c:a" : String) ≠ out_path := fun hx => hout.2.1 hx.symm
  have hout3 : ("-filter:v" : String) ≠ out_path := fun hx => hout.2.2 hx.symm
  refine ⟨_, hbc, rfl, ⟨["ffmpeg", "-y", "-i", in_path],
    (if pyStrip values.format = "mp4" ∨ pyStrip values.format = "mov" then
      (["-movflags", "+faststart"] : List String) else []) ++ [out_path],
    by simp⟩, ?_, ?_, ?_⟩ <;>
  · split_ifs <;>
      simp [List.mem_append, List.mem_cons, hin1, hin2, hin3, hout1, hout2, hout3]

/-- C1 witness: the concrete baseline mp4 remux request. -/
theorem c1_remux_stream_copy_witness :
    ∃ cmd, buildCommand envW valuesW "in.mp4" "out.mp4" [] [] = .ok cmd ∧
      cmd = ["ffmpeg", "-y", "-i", "in.mp4", "-c", "copy"] ++
        (if pyStrip valuesW.format = "mp4" ∨ pyStrip valuesW.format = "mov" then
          ["-movflags", "+faststart"] else []) ++ ["out.mp4"] ∧
      ["-c", "copy"] <:+: cmd ∧
      "-c:v" ∉ cmd ∧ "-c:a" ∉ cmd ∧ "-filter:v" ∉ cmd :=
  c1_remux_stream_copy envW valuesW "in.mp4" "out.mp4" [] [] rfl rfl
    (Or.inl (by decide)) rfl (by decide) (by decide)

/-! ## C6: validation order, first failing check wins -/

/-- C6: `build_command` fails with message `e` exactly when the spec's
ordered validation cascade (`specValidationFirstError`: input exists,
format non-empty, trim start present, target fps present and numeric,
decoder capability) produces `e` as its first failing check; in
particular an fps-enabled request with a non-numeric target fps that
passes the earlier checks fails with the corresponding fps validation
message. -/
theorem c6_validation_order (env : Env) (values : Values) (in_path out_path : String)
    (encoders decoders : List String) :
    (∀ e, buildCommand env values in_path out_path encoders decoders = .error e ↔
      specValidationFirstError env values in_path decoders = some e) ∧
    (env.isfile in_path = true → pyStrip values.format ≠ "" →
      (values.trim_enabled = true → values.trim_start ≠ none) →
      values.fps_enabled = true → isPyFloat (pyStrip values.fps) = false →
      buildCommand env values in_path out_path encoders decoders =
        .error (if pyStrip values.fps = "" then
          "Target FPS is required when FPS change is enabled."
        else "Target FPS must be a number.")) := by
  constructor
  · intro e
    have hnd := filters_needs_decode values.fps_enabled values.trim_enabled
      (pyStrip values.fps) (pyStrip values.format)
    simp only [buildCommand, specValidationFirstError]
    rw [hnd]
    split_ifs <;> simp
  · intro h1 h2 h3 h4 h5
    have h3' : ¬ (values.trim_enabled = true ∧ values.trim_start = none) := by
      rintro ⟨ht, hs⟩
      exact h3 ht hs
    by_cases hempty : pyStrip values.fps = "" <;>
      simp [buildCommand, h1, h2, h3', h4, h5, hempty]

/-- C6 witness: an fps-enabled request with the non-numeric target fps
`"abc"` (existing input, non-empty format, no trim) fails with the fps
validation error. -/
theorem c6_validation_order_witness :
    buildCommand envW { valuesW with fps_enabled := true, fps := "abc" }
      "in.mp4" "o.mp4" [] [] =
      .error (if pyStrip (Values.fps { valuesW with fps_enabled := true, fps := "abc" }) = ""
        then "Target FPS is required when FPS change is enabled."
        else "Target FPS must be a number.") :=
  (c6_validation_order envW { valuesW with fps_enabled := true, fps := "abc" }
    "in.mp4" "o.mp4" [] []).2 rfl (by decide) (fun h => Bool.noConfusion h) rfl (by decide)

/-! ## C3: decoder capability check -/

theorem buildCommand_validated (env : Env) (values : Values) (in_path out_path : String)
    (encoders decoders : List String)
    (hfile : env.isfile in_path = true)
    (hfmt : pyStrip values.format ≠ "")
    (htrim : ¬ (values.trim_enabled = true ∧ values.trim_start = none))
    (hfps1 : ¬ (values.fps_enabled = true ∧ pyStrip values.fps = ""))
    (hfps2 : ¬ (values.fps_enabled = true ∧ isPyFloat (pyStrip values.fps) = false)) :
    buildCommand env values in_path out_path encoders decoders =
      if codecBlocks (env.videoCodec in_path)
          (values.fps_enabled || values.trim_enabled || pyStrip values.format = "gif")
          decoders then
        .error ("Your FFmpeg build cannot decode '" ++
          (env.videoCodec in_path).getD "" ++
          "'. Install a full FFmpeg build or disable trim/FPS change.")
      else
        .ok (baseCmd values in_path ++
          commandTail (pyStrip values.format)
            (if values.fps_enabled then pyStrip values.fps else "10")
            (if values.fps_enabled then ["fps=" ++ pyStrip values.fps] else [])
            values.trim_enabled encoders ++ [out_path]) := by
  have hnd := filters_needs_decode values.fps_enabled values.trim_enabled
    (pyStrip values.fps) (pyStrip values.format)
  simp only [buildCommand]
  rw [hnd]
  simp [hfile, hfmt, htrim, hfps1, hfps2]

/-- C3: under requests passing the earlier validation checks, when a
pixel-level transform is required (fps change, trim, or gif output) and
the probed codec is known (and non-empty, as `_get_video_codec`
guarantees) but absent from the decoder set, planning fails with the
"cannot decode" error naming that codec; when the codec is unknown, or
present in the decoder set, or no transform is required, the planner
succeeds instead. -/
theorem c3_decoder_check (env : Env) (values : Values) (in_path out_path : String)
    (encoders decoders : List String) (c : String)
    (hfile : env.isfile in_path = true)
    (hfmt : pyStrip values.format ≠ "")
    (htrim : values.trim_enabled = true → values.trim_start ≠ none)
    (hfps : values.fps_enabled = true →
      pyStrip values.fps ≠ "" ∧ isPyFloat (pyStrip values.fps) = true) :
    ((values.fps_enabled || values.trim_enabled || pyStrip values.format = "gif") = true →
      env.videoCodec in_path = some c → c ≠ "" → decoders.contains c = false →
      buildCommand env values in_path out_path encoders decoders =
        .error ("Your FFmpeg build cannot decode '" ++ c ++
          "'. Install a full FFmpeg build or disable trim/FPS change.")) ∧
    (env.videoCodec in_path = none →
      ∃ cmd, buildCommand env values in_path out_path encoders decoders = .ok cmd) ∧
    (env.videoCodec in_path = some c → decoders.contains c = true →
      ∃ cmd, buildCommand env values in_path out_path encoders decoders = .ok cmd) ∧
    ((values.fps_enabled || values.trim_enabled || pyStrip values.format = "gif") = false →
      ∃ cmd, buildCommand env values in_path out_path encoders decoders = .ok cmd) := by
  have h3' : ¬ (values.trim_enabled = true ∧ values.trim_start = none) :=
    fun hx => htrim hx.1 hx.2
  have h4' : ¬ (values.fps_enabled = true ∧ pyStrip values.fps = "") :=
    fun hx => (hfps hx.1).1 hx.2
  have h5' : ¬ (values.fps_enabled = true ∧ isPyFloat (pyStrip values.fps) = false) := by
    rintro ⟨ha, hb⟩
    have := (hfps ha).2
    simp [this] at hb
  have hbv := buildCommand_validated env values in_path out_path encoders decoders
    hfile hfmt h3' h4' h5'
  refine ⟨?_, ?_, ?_, ?_⟩
  · intro hnd hcodec hc hdec
    have hdec' : c ∉ decoders := by simpa using hdec
    rw [hbv, hcodec]
    simp [codecBlocks, hnd, hc, hdec']
  · intro hcodec
    rw [hbv, hcodec]
    simp [codecBlocks]
  · intro hcodec hdec
    have hdec' : c ∈ decoders := by simpa using hdec
    rw [hbv, hcodec]
    simp [codecBlocks, hdec']
  · intro hnd
    rw [hbv, hnd]
    simp [codecBlocks_of_not_decode]

/-- C3 witness: input with codec `h264`, decoder set lacking `h264`, fps
change enabled: planning fails with an error naming `h264`. -/
theorem c3_decoder_check_witness :
    buildCommand envH valuesF "in.mp4" "o.mp4" [] [] =
      .error ("Your FFmpeg build cannot decode '" ++ "h264" ++
        "'. Install a full FFmpeg build or disable trim/FPS change.") :=
  (c3_decoder_check envH valuesF "in.mp4" "o.mp4" [] [] "h264" rfl (by decide)
    (fun h => Bool.noConfusion h) (fun _ => ⟨by decide, by decide⟩)).1
    (by decide) rfl (by decide) rfl

/-! ## C5: trim placement and end-bound dropping -/

theorem buildCommand_ok (env : Env) (values : Values) (in_path out_path : String)
    (encoders decoders : List String) (cmd : List String)
    (hok : buildCommand env values in_path out_path encoders decoders = .ok cmd) :
    cmd = baseCmd values in_path ++
      commandTail (pyStrip values.format)
        (if values.fps_enabled then pyStrip values.fps else "10")
        (if values.fps_enabled then ["fps=" ++ pyStrip values.fps] else [])
        values.trim_enabled encoders ++ [out_path] := by
  by_cases hfe : values.fps_enabled = true <;>
  · simp [buildCommand, hfe] at hok
    simp [hfe]
    repeat' split at hok <;> try exact Except.noConfusion hok
    exact (Except.ok.inj hok).symm

/-- C5: every trim-enabled request that plans successfully with start `s`
yields a command beginning `ffmpeg -y -ss <s to milliseconds> -i <input>`
(the seek strictly before the input), followed by a `-to` bound exactly
when an end time is present and exceeds the start; in particular the end
bound is dropped whenever `end <= start`. -/
theorem c5_trim_seek (env : Env) (values : Values) (in_path out_path : String)
    (encoders decoders : List String) (cmd : List String) (s : Rat)
    (hok : buildCommand env values in_path out_path encoders decoders = .ok cmd)
    (htrim : values.trim_enabled = true) (hstart : values.trim_start = some s) :
    cmd = ["ffmpeg", "-y", "-ss", formatMillis s, "-i", in_path] ++
      (match values.trim_end with
       | some e => if s < e then ["-to", formatMillis e] else []
       | none => []) ++
      commandTail (pyStrip values.format)
        (if values.fps_enabled then pyStrip values.fps else "10")
        (if values.fps_enabled then ["fps=" ++ pyStrip values.fps] else [])
        values.trim_enabled encoders ++ [out_path] ∧
    (∀ e, values.trim_end = some e → e ≤ s →
      cmd = ["ffmpeg", "-y", "-ss", formatMillis s, "-i", in_path] ++
        commandTail (pyStrip values.format)
          (if values.fps_enabled then pyStrip values.fps else "10")
          (if values.fps_enabled then ["fps=" ++ pyStrip values.fps] else [])
          values.trim_enabled encoders ++ [out_path]) := by
  have hshape := buildCommand_ok env values in_path out_path encoders decoders cmd hok
  constructor
  · rw [hshape]
    simp [baseCmd, htrim, hstart, List.append_assoc]
  · intro e he hle
    rw [hshape]
    simp [baseCmd, htrim, hstart, he, if_neg (not_lt.mpr hle), List.append_assoc]

/-- C5 witness: the trim request `valuesC5` (end 0.5s below start 1s)
plans with the pre-input seek and without any `-to` bound. -/
theorem c5_trim_seek_witness :
    (["ffmpeg", "-y", "-ss", "1.000", "-i", "in.mp4", "-movflags", "+faststart",
      "o.mp4"] : List String) =
      ["ffmpeg", "-y", "-ss", formatMillis 1, "-i", "in.mp4"] ++
        commandTail (pyStrip valuesC5.format)
          (if valuesC5.fps_enabled then pyStrip valuesC5.fps else "10")
          (if valuesC5.fps_enabled then ["fps=" ++ pyStrip valuesC5.fps] else [])
          valuesC5.trim_enabled [] ++ ["o.mp4"] :=
  (c5_trim_seek envW valuesC5 "in.mp4" "o.mp4" [] []
    ["ffmpeg", "-y", "-ss", "1.000", "-i", "in.mp4", "-movflags", "+faststart", "o.mp4"]
    1 (by with_unfolding_all rfl) rfl rfl).2 (1/2) rfl (by norm_num)

/-! ## C8: gif planning -/

theorem dot_mem_formatMillis (x : Rat) : '.' ∈ (formatMillis x).data := by
  have h : '.' ∈ ("." : String).data := by decide
  simp only [formatMillis, String.data_append, List.mem_append]
  tauto

theorem formatMillis_ne (x : Rat) (t : String) (h : '.' ∉ t.data) :
    formatMillis x ≠ t :=
  fun he => h (he ▸ dot_mem_formatMillis x)

theorem fps_filter_ne (t u v : String) (hv : ¬ v.data.head? = some 'f') :
    "fps=" ++ t ++ u ≠ v := by
  intro he
  apply hv
  rw [← congrArg String.data he]
  have h4 : ("fps=" : String).data = 'f' :: ['p', 's', '='] := by decide
  simp [String.data_append, h4]

theorem mem_baseCmd (values : Values) (in_path x : String)
    (hx : x ∈ baseCmd values in_path) :
    x = "ffmpeg" ∨ x = "-y" ∨ x = "-ss" ∨ x = "-i" ∨ x = "-to" ∨ x = in_path ∨
      ∃ r, x = formatMillis r := by
  unfold baseCmd at hx
  by_cases hb : values.trim_enabled = true
  · rw [if_pos hb] at hx
    rcases hs : values.trim_start with _ | s
    · rw [hs] at hx
      simp at hx
      tauto
    · rw [hs] at hx
      rcases he : values.trim_end with _ | e
      · rw [he] at hx
        simp at hx
        rcases hx with h | h | h | h | h | h
        · tauto
        · tauto
        · tauto
        · exact Or.inr (Or.inr (Or.inr (Or.inr (Or.inr (Or.inr ⟨s, h⟩)))))
        · tauto
        · tauto
      · rw [he] at hx
        by_cases hlt : s < e
        · simp [hlt] at hx
          rcases hx with h | h | h | h | h | h | h | h
          · tauto
          · tauto
          · tauto
          · exact Or.inr (Or.inr (Or.inr (Or.inr (Or.inr (Or.inr ⟨s, h⟩)))))
          · tauto
          · tauto
          · tauto
          · exact Or.inr (Or.inr (Or.inr (Or.inr (Or.inr (Or.inr ⟨e, h⟩)))))
        · simp [hlt] at hx
          rcases hx with h | h | h | h | h | h
          · tauto
          · tauto
          · tauto
          · exact Or.inr (Or.inr (Or.inr (Or.inr (Or.inr (Or.inr ⟨s, h⟩)))))
          · tauto
          · tauto
  · rw [if_neg hb] at hx
    simp at hx
    tauto

/-- C8: every gif-output request that plans successfully produces exactly
the filter chain `fps=<F>,scale=640:-1:flags=lanczos` (with `F` the
requested fps when fps change is enabled and `10` otherwise) passed via
`-vf`, drops audio with `-an`, and emits no `-c:a` audio-encoder token
(the path arguments are assumed not to collide with that literal). -/
theorem c8_gif_planning (env : Env) (values : Values) (in_path out_path : String)
    (encoders decoders : List String) (cmd : List String)
    (hok : buildCommand env values in_path out_path encoders decoders = .ok cmd)
    (hgif : pyStrip values.format = "gif")
    (hin : in_path ≠ "-c:a") (hout : out_path ≠ "-c:a") :
    cmd = baseCmd values in_path ++
      ["-vf", "fps=" ++ (if values.fps_enabled then pyStrip values.fps else "10") ++
        ",scale=640:-1:flags=lanczos", "-an"] ++ [out_path] ∧
    "-an" ∈ cmd ∧ "-c:a" ∉ cmd := by
  have hshape := buildCommand_ok env values in_path out_path encoders decoders cmd hok
  have hcmd : cmd = baseCmd values in_path ++
      ["-vf", "fps=" ++ (if values.fps_enabled then pyStrip values.fps else "10") ++
        ",scale=640:-1:flags=lanczos", "-an"] ++ [out_path] := by
    have hjoin : ("," ++ "scale=640:-1:flags=lanczos" : String) =
        ",scale=640:-1:flags=lanczos" := by decide
    rw [hshape]
    simp [commandTail, hgif, joinComma, String.append_assoc, hjoin]
  refine ⟨hcmd, ?_, ?_⟩
  · rw [hcmd]
    simp
  · rw [hcmd]
    intro hmem
    simp only [List.mem_append, List.mem_cons, List.not_mem_nil, or_false,
      List.mem_singleton] at hmem
    rcases hmem with (hbase | hvf | hfstr | han) | hout2
    · rcases mem_baseCmd values in_path "-c:a" hbase with
        h | h | h | h | h | h | ⟨r, h⟩
      · exact absurd h (by decide)
      · exact absurd h (by decide)
      · exact absurd h (by decide)
      · exact absurd h (by decide)
      · exact absurd h (by decide)
      · exact hin h.symm
      · exact formatMillis_ne r "-c:a" (by decide) h.symm
    · exact absurd hvf (by decide)
    · exact fps_filter_ne _ _ "-c:a" (by decide) hfstr.symm
    · exact absurd han (by decide)
    · exact hout hout2.symm

/-- C8 witness: a gif request at 15 fps plans to exactly the fixed filter
chain with `-an` and no audio encoder token. -/
theorem c8_gif_planning_witness :
    (["ffmpeg", "-y", "-i", "in.mp4", "-vf", "fps=15,scale=640:-1:flags=lanczos",
        "-an", "o.gif"] : List String) =
      baseCmd valuesG "in.mp4" ++
        ["-vf", "fps=" ++ (if valuesG.fps_enabled then pyStrip valuesG.fps else "10") ++
          ",scale=640:-1:flags=lanczos", "-an"] ++ ["o.gif"] ∧
    "-an" ∈ (["ffmpeg", "-y", "-i", "in.mp4", "-vf",
      "fps=15,scale=640:-1:flags=lanczos", "-an", "o.gif"] : List String) ∧
    "-c:a" ∉ (["ffmpeg", "-y", "-i", "in.mp4", "-vf",
      "fps=15,scale=640:-1:flags=lanczos", "-an", "o.gif"] : List String) :=
  c8_gif_planning envW valuesG "in.mp4" "o.gif" [] ["h264"]
    ["ffmpeg", "-y", "-i", "in.mp4", "-vf", "fps=15,scale=640:-1:flags=lanczos",
      "-an", "o.gif"]
    (by with_unfolding_all rfl) (by decide) (by decide) (by decide)

/-! ## C2: malformed duration tokens in the progress tracker -/

/-- C2 counterexample: on a line announcing a malformed duration token
(`ab`), the tracker does not keep the previously known total duration
(100s); the `except` branch of `_set_progress_from_line` resets
`self.total_duration` to `None`. -/
theorem c2_counterexample :
    strContains "Duration: ab, bitrate" "Duration:" = true ∧
    parseTimeToSeconds (durToken "Duration: ab, bitrate") = .error () ∧
    (setProgressFromLine ⟨some 100, 50⟩ "Duration: ab, bitrate").total_duration ≠
      (⟨some 100, 50⟩ : ProgressState).total_duration := by
  refine ⟨by decide, by with_unfolding_all rfl, ?_⟩
  have h : (setProgressFromLine ⟨some 100, 50⟩
      "Duration: ab, bitrate").total_duration = none := by
    with_unfolding_all rfl
  rw [h]
  simp

/-- C2 (amended): a line containing a duration announcement whose time
token fails to parse (or is empty) resets the known total duration to
`None` — disabling subsequent percent updates — while the last progress
percent keeps its prior value. -/
theorem c2_amended_duration_reset (st : ProgressState) (line : String)
    (hdur : strContains line "Duration:" = true)
    (hbad : parseTimeToSeconds (durToken line) = .error () ∨
      parseTimeToSeconds (durToken line) = .ok none) :
    (setProgressFromLine st line).total_duration = none ∧
    (setProgressFromLine st line).progressValue = st.progressValue := by
  rcases hbad with hb | hb <;>
    simp [setProgressFromLine, hdur, hb]

/-- C2 witness for the amended statement: concrete malformed line. -/
theorem c2_amended_duration_reset_witness :
    (setProgressFromLine ⟨some 100, 50⟩ "Duration: xx,").total_duration = none ∧
    (setProgressFromLine ⟨some 100, 50⟩ "Duration: xx,").progressValue =
      (⟨some 100, 50⟩ : ProgressState).progressValue :=
  c2_amended_duration_reset ⟨some 100, 50⟩ "Duration: xx," (by decide)
    (Or.inl (by with_unfolding_all rfl))

/-! ## C9: trim-end sanitization in the batch run -/

/-- C9 counterexample: a probed duration of exactly `0.0` is known
(`some 0`) but falsy for Python's `if duration`, so an end bound beyond
the duration (2s past an end-of-file at 0s, well within the claim's
"at or beyond the duration") is kept rather than dropped. -/
theorem c9_counterexample :
    (some (0 : Rat)).isSome = true ∧ (0 : Rat) - 1 / 100 ≤ 2 ∧
    sanitizeTrim (some 0) 1 2 = .ok (1, some 2) := by
  refine ⟨rfl, by norm_num, by with_unfolding_all rfl⟩

/-- C9 (amended): during the batch run, for a known and non-zero probed
duration, an end bound within the 0.01s epsilon of (or beyond) the
duration is dropped whenever the item passes its trim-start check; and
whenever the end bound would give a zero-or-negative-length clip the item
either fails its trim-start check or plans with the end bound dropped. -/
theorem c9_amended_trim_end_sanitize (dur : Option Rat) (d start e : Rat) :
    (dur = some d → d ≠ 0 → start < d → d - 1 / 100 ≤ e →
      sanitizeTrim dur start e = .ok (start, none)) ∧
    (e ≤ start →
      sanitizeTrim dur start e = .error "Trim start must be within the video duration." ∨
      sanitizeTrim dur start e = .ok (start, none)) := by
  have hredS : ∀ dd : Rat, sanitizeTrim (some dd) start e =
      (if dd ≠ 0 then
        if dd ≤ start then .error "Trim start must be within the video duration."
        else
          if dd - 1 / 100 ≤ e then .ok (start, none)
          else if e ≤ start + 1 / 100 then .ok (start, none) else .ok (start, some e)
      else
        if e ≤ start + 1 / 100 then .ok (start, none) else .ok (start, some e)) :=
    fun _ => rfl
  have hredN : sanitizeTrim none start e =
      (if e ≤ start + 1 / 100 then .ok (start, none) else .ok (start, some e)) := rfl
  constructor
  · intro hd hd0 hlt heps
    subst hd
    rw [hredS d, if_pos hd0, if_neg (not_le.mpr hlt), if_pos heps]
  · intro hle
    have hle2 : e ≤ start + 1 / 100 := by linarith
    rcases dur with _ | dd
    · rw [hredN, if_pos hle2]
      exact Or.inr rfl
    · rw [hredS dd]
      by_cases hd0 : dd ≠ 0
      · rw [if_pos hd0]
        by_cases hds : dd ≤ start
        · rw [if_pos hds]
          exact Or.inl rfl
        · rw [if_neg hds]
          by_cases heps : dd - 1 / 100 ≤ e
          · rw [if_pos heps]
            exact Or.inr rfl
          · rw [if_neg heps, if_pos hle2]
            exact Or.inr rfl
      · rw [if_neg hd0, if_pos hle2]
        exact Or.inr rfl

/-- C9 witness for the amended statement: duration 10s, start 1s, end
10s (at the end of file): the end bound is dropped. -/
theorem c9_amended_trim_end_sanitize_witness :
    sanitizeTrim (some 10) 1 10 = .ok (1, none) :=
  (c9_amended_trim_end_sanitize (some 10) 10 1 10).1 rfl (by norm_num)
    (by norm_num) (by norm_num)

/-! ## C10: trim-start abort in the batch run -/

/-- C10 counterexample: with a known probed duration of exactly `0.0`
and trim start `0 >= 0`, the run does not fail — Python's `if duration`
is false for `0.0`, the check is skipped, and the item is planned and
executed successfully. -/
theorem c10_counterexample :
    envZ.duration "in.mp4" = some 0 ∧ (0 : Rat) ≤ 0 ∧ valuesT.trim_enabled = true ∧
    (runWorker envZ valuesT 0 0 1 [] [] ["in.mp4"]).success = true ∧
    (runWorker envZ valuesT 0 0 1 [] [] ["in.mp4"]).executed.length = 1 ∧
    (runWorker envZ valuesT 0 0 1 [] [] ["in.mp4"]).errorMsg = none := by
  refine ⟨rfl, le_refl 0, rfl, ?_, ?_, ?_⟩ <;> with_unfolding_all rfl

/-- C10 (amended): for a known and *non-zero* freshly probed duration,
a trim-enabled batch item whose start is at or past that duration aborts
the whole run with the trim-start validation error, with no command
executed for that item nor any later item. -/
theorem c10_amended_trim_start_abort (env : Env) (values : Values)
    (startSec endSec : Rat) (n : Nat) (encoders decoders : List String)
    (in_path : String) (rest : List String) (d : Rat)
    (htrim : values.trim_enabled = true)
    (hd : env.duration in_path = some d) (hd0 : d ≠ 0) (hge : d ≤ startSec) :
    runWorker env values startSec endSec n encoders decoders (in_path :: rest) =
      { executed := [], errorMsg := some "Trim start must be within the video duration.",
        success := false } := by
  have hplan : planFor env values startSec endSec n encoders decoders in_path =
      .error "Trim start must be within the video duration." := by
    simp [planFor, htrim, hd, sanitizeTrim, hd0, hge, Except.map]
  simp [runWorker, hplan]

/-- C10 witness for the amended statement: duration 60s, trim start 60s:
the run aborts with the trim-start error and nothing executes. -/
theorem c10_amended_trim_start_abort_witness :
    runWorker envW valuesT 60 0 1 [] [] ["in.mp4", "b.mp4"] =
      { executed := [], errorMsg := some "Trim start must be within the video duration.",
        success := false } :=
  c10_amended_trim_start_abort envW valuesT 60 0 1 [] [] "in.mp4" ["b.mp4"] 60
    rfl rfl (by norm_num) (le_refl 60)

/-! ## C4: batch sequencing and abort-on-first-failure -/

theorem runWorker_success (env : Env) (values : Values) (startSec endSec : Rat)
    (n : Nat) (encoders decoders : List String) (inputs : List String)
    (hs : (runWorker env values startSec endSec n encoders decoders inputs).success = true) :
    (runWorker env values startSec endSec n encoders decoders inputs).executed.map
      Prod.fst = inputs ∧
    ∀ x ∈ (runWorker env values startSec endSec n encoders decoders inputs).executed,
      x.2.2 = 0 := by
  induction inputs with
  | nil => simp [runWorker]
  | cons a rest ih =>
    rcases hplan : planFor env values startSec endSec n encoders decoders a with e | cmd
    · simp only [runWorker, hplan] at hs
      simp at hs
    · simp only [runWorker, hplan] at hs ⊢
      by_cases hc : env.exitCode cmd ≠ 0
      · rw [if_pos hc] at hs
        exact absurd hs (by simp)
      · rw [if_neg hc] at hs ⊢
        push_neg at hc
        obtain ⟨ih1, ih2⟩ := ih hs
        refine ⟨by simpa using ih1, ?_⟩
        intro x hx
        simp only [List.mem_cons] at hx
        rcases hx with rfl | hx
        · simpa using hc
        · exact ih2 x hx

/-- C4: the batch worker processes inputs strictly in sequence and aborts
on the first failure: for three inputs where the first plans and runs
with exit code 0 and the second fails planning with message `msg`, the
outcome records exactly the first input as executed, surfaces `msg`, and
never reaches the third; and in general overall success is reported only
when every input was executed, in order, with exit code 0. -/
theorem c4_batch_abort (env : Env) (values : Values) (startSec endSec : Rat)
    (n : Nat) (encoders decoders : List String) (i1 i2 i3 : String)
    (cmd1 : List String) (msg : String)
    (h1 : planFor env values startSec endSec n encoders decoders i1 = .ok cmd1)
    (h2 : env.exitCode cmd1 = 0)
    (h3 : planFor env values startSec endSec n encoders decoders i2 = .error msg) :
    runWorker env values startSec endSec n encoders decoders [i1, i2, i3] =
      { executed := [(i1, cmd1, 0)], errorMsg := some msg, success := false } ∧
    ∀ inputs,
      (runWorker env values startSec endSec n encoders decoders inputs).success = true →
      (runWorker env values startSec endSec n encoders decoders inputs).executed.map
        Prod.fst = inputs ∧
      ∀ x ∈ (runWorker env values startSec endSec n encoders decoders inputs).executed,
        x.2.2 = 0 := by
  constructor
  · simp only [runWorker, h1, h3]
    rw [if_neg (by simp [h2])]
    simp [h2]
  · exact fun inputs =>
      runWorker_success env values startSec endSec n encoders decoders inputs

/-- C4 witness: a batch of three where the second input does not exist:
the first runs with exit 0, the second's validation failure is surfaced,
the third is never reached. -/
theorem c4_batch_abort_witness :
    runWorker envB valuesW 0 0 3 [] [] ["a.mp4", "b.mp4", "c.mp4"] =
      { executed := [("a.mp4",
          ["ffmpeg", "-y", "-i", "a.mp4", "-c", "copy", "-movflags", "+faststart",
            "outdir/a.mp4"], 0)],
        errorMsg := some "Input file does not exist.", success := false } :=
  (c4_batch_abort envB valuesW 0 0 3 [] [] "a.mp4" "b.mp4" "c.mp4"
    ["ffmpeg", "-y", "-i", "a.mp4", "-c", "copy", "-movflags", "+faststart",
      "outdir/a.mp4"]
    "Input file does not exist."
    (by with_unfolding_all rfl) rfl (by with_unfolding_all rfl)).1

/-! ## C7: preview cache bound and eviction order -/

theorem dictSet_append {V : Type} (t : List (PreviewKey × V)) (k : PreviewKey) (v : V)
    (hk : k ∉ t.map Prod.fst) : dictSet t k v = t ++ [(k, v)] := by
  induction t with
  | nil => rfl
  | cons a r ih =>
    rcases a with ⟨k1, v1⟩
    simp only [List.map_cons, List.mem_cons, not_or] at hk
    simp only [dictSet, List.cons_append]
    rw [if_neg (fun h => hk.1 h.symm), ih hk.2]

theorem dictRemove_head {V : Type} (k1 : PreviewKey) (v1 : V)
    (t : List (PreviewKey × V)) : dictRemove ((k1, v1) :: t) k1 = t := by
  simp [dictRemove]

theorem cachePreviewImage_mk {V : Type} (p : List (PreviewKey × V)) (k : PreviewKey)
    (v : V) (hk : k ∉ p.map Prod.fst) (hlen : p.length ≤ 20) :
    cachePreviewImage (mkCacheState p) k v =
      mkCacheState (if p.length = 20 then p.tail ++ [(k, v)] else p ++ [(k, v)]) := by
  unfold cachePreviewImage mkCacheState
  simp only [dictSet_append p k v hk]
  by_cases h20 : p.length = 20
  · rw [if_pos h20]
    have hgt : 20 < (p.map Prod.fst ++ [k]).length := by
      simp [h20]
    rw [if_pos hgt]
    rcases p with _ | ⟨⟨k1, v1⟩, q⟩
    · simp at h20
    · simp only [List.map_cons, List.cons_append, List.tail_cons]
      rw [dictRemove_head]
      simp [List.map_append]
  · rw [if_neg h20]
    have hng : ¬ 20 < (p.map Prod.fst ++ [k]).length := by
      simp only [List.length_append, List.length_map, List.length_singleton]
      omega
    rw [if_neg hng]
    simp [List.map_append]

theorem lastN_tail_append {α : Type} (p : List α) (x : α) (r : List α)
    (h20 : p.length = 20) :
    lastN 20 ((p.tail ++ [x]) ++ r) = lastN 20 (p ++ x :: r) := by
  rcases p with _ | ⟨a, q⟩
  · simp at h20
  · have hq : q.length = 19 := by simpa using h20
    simp only [List.tail_cons, lastN, List.append_assoc, List.singleton_append,
      List.cons_append, List.nil_append]
    have e1 : (q ++ x :: r).length - 20 = r.length := by
      simp only [List.length_append, List.length_cons, hq]
      omega
    have e2 : (a :: (q ++ x :: r)).length - 20 = r.length + 1 := by
      simp only [List.length_cons, List.length_append, hq]
      omega
    rw [e1, e2, List.drop_succ_cons]

theorem insertAll_characterization {V : Type} (kvs : List (PreviewKey × V)) :
    ∀ p : List (PreviewKey × V),
      ((p ++ kvs).map Prod.fst).Nodup → p.length ≤ 20 →
      insertAll (mkCacheState p) kvs = mkCacheState (lastN 20 (p ++ kvs)) := by
  induction kvs with
  | nil =>
    intro p _ hlen
    simp [insertAll, lastN, Nat.sub_eq_zero_of_le hlen]
  | cons kv r ih =>
    intro p hnodup hlen
    rcases kv with ⟨k, v⟩
    have hassoc : p ++ (k, v) :: r = (p ++ [(k, v)]) ++ r := by
      simp
    have hk : k ∉ p.map Prod.fst := by
      simp only [List.map_append, List.map_cons] at hnodup
      intro hmem
      exact (List.nodup_append.mp hnodup).2.2 hmem (List.mem_cons_self _ _)
    simp only [insertAll]
    rw [cachePreviewImage_mk p k v hk hlen]
    by_cases h20 : p.length = 20
    · rw [if_pos h20]
      have hsub : List.Sublist ((p.tail ++ [(k, v)]) ++ r) ((p ++ [(k, v)]) ++ r) :=
        ((p.tail_sublist).append_right [(k, v)]).append_right r
      have hnodup' : (((p.tail ++ [(k, v)]) ++ r).map Prod.fst).Nodup := by
        refine List.Nodup.sublist (hsub.map Prod.fst) ?_
        rw [← hassoc]
        exact hnodup
      have hlen' : (p.tail ++ [(k, v)]).length ≤ 20 := by
        simp [List.length_tail, h20]
      rw [ih (p.tail ++ [(k, v)]) hnodup' hlen']
      rw [lastN_tail_append p (k, v) r h20]
    · rw [if_neg h20]
      have hnodup' : (((p ++ [(k, v)]) ++ r).map Prod.fst).Nodup := by
        rw [← hassoc]
        exact hnodup
      have hlen' : (p ++ [(k, v)]).length ≤ 20 := by
        simp only [List.length_append, List.length_singleton]
        omega
      rw [ih (p ++ [(k, v)]) hnodup' hlen']
      rw [← hassoc]

/-- C7: the preview cache, starting empty and fed any sequence of
insertions with pairwise-distinct keys, always holds exactly the last 20
inserted entries in insertion order (so its size never exceeds 20, and
eviction removes the oldest-inserted keys first); in particular its size
is `min n 20` after `n` distinct insertions. -/
theorem c7_preview_cache_bound {V : Type} (kvs : List (PreviewKey × V))
    (hnodup : (kvs.map Prod.fst).Nodup) :
    insertAll emptyCache kvs = mkCacheState (lastN 20 kvs) ∧
    (insertAll emptyCache kvs).cache.length = min kvs.length 20 := by
  have h := insertAll_characterization kvs [] (by simpa using hnodup) (by simp)
  have hempty : (emptyCache : CacheState V) = mkCacheState [] := rfl
  constructor
  · rw [hempty]
    simpa using h
  · rw [hempty]
    simp only [List.nil_append] at h
    rw [h]
    simp only [mkCacheState, lastN, List.length_drop]
    omega

/-- C7 witness: inserting the 25 distinct keys of `kvs25` leaves exactly
20 entries — the last 20 inserted, i.e. the 5 oldest are evicted. -/
theorem c7_preview_cache_bound_witness :
    (insertAll emptyCache kvs25 = mkCacheState (lastN 20 kvs25) ∧
      (insertAll emptyCache kvs25).cache.length = min kvs25.length 20) ∧
    lastN 20 kvs25 = kvs25.drop 5 ∧ min kvs25.length 20 = 20 :=
  ⟨c7_preview_cache_bound kvs25 (by decide), by decide, by decide⟩

